import Mathlib

/-!
# Verification of the trscrape tracker scrape engine

A shallow embedding in Lean 4 of the tracker scrape protocol engine of the
`trscrape` repository (Rust): the bounds-checked binary cursor (`src/util.rs`),
the UDP tracker session state machine with connection caching, retry/backoff
and transaction-ID correlation (`src/tracker/udp.rs`), the bencode decoder for
HTTP scrape responses (`src/tracker/http.rs`, `src/util.rs`), and the scrape
URL construction (`src/tracker/http.rs`, `src/infohash.rs`).

Byte buffers are modelled as `List Nat` (each element a byte value); Rust
strings that only flow through opaquely are modelled as the byte lists they
were built from.  Instants are modelled as natural numbers counting seconds.
Nondeterministic inputs of the real program (random transaction IDs, the
current time, network replies and timeouts) are supplied through explicit
environment values, so every function is a pure, executable translation of
the corresponding Rust item.
-/

namespace Trscrape

/-- Big-endian value of a list of bytes, as read by `bytes::Buf::get_u32` /
`get_u64` over the first `w` bytes. -/
def beNat (l : List Nat) : Nat :=
  l.foldl (fun acc b => acc * 256 + b) 0

/-- `PacketError` from `src/util.rs`: the only variant is `Short`
("unexpected end of packet"). -/
inductive PacketError where
  | Short
  deriving DecidableEq, Repr

/-- `impl_tryfrombuf!(u32, 4, ...)` from `src/util.rs`: read a big-endian
`u32` if at least 4 bytes remain, else fail with `Short`.  Returns the value
together with the remaining buffer (the cursor after the read). -/
def tryGetU32 (buf : List Nat) : Except PacketError (Nat × List Nat) :=
  if 4 ≤ buf.length then .ok (beNat (buf.take 4), buf.drop 4)
  else .error PacketError.Short

/-- `impl_tryfrombuf!(u64, 8, ...)` from `src/util.rs`: read a big-endian
`u64` if at least 8 bytes remain, else fail with `Short`. -/
def tryGetU64 (buf : List Nat) : Except PacketError (Nat × List Nat) :=
  if 8 ≤ buf.length then .ok (beNat (buf.take 8), buf.drop 8)
  else .error PacketError.Short

/-- `InfoHash` from `src/infohash.rs`: exactly 20 raw bytes.  The length
invariant is carried as a hypothesis where needed. -/
structure InfoHash where
  bytes : List Nat
  deriving DecidableEq, Repr

/-- `TryFromBuf for InfoHash` from `src/infohash.rs`: copy 20 bytes if at
least 20 remain, else fail with `Short`. -/
def tryGetInfoHash (buf : List Nat) : Except PacketError (InfoHash × List Nat) :=
  if 20 ≤ buf.length then .ok (⟨buf.take 20⟩, buf.drop 20)
  else .error PacketError.Short

/-- `Scrape` from `src/tracker/mod.rs`: the three `u32` swarm counters. -/
structure Scrape where
  complete : Nat
  incomplete : Nat
  downloaded : Nat
  deriving DecidableEq, Repr

/-- `TryFromBuf for Scrape` from `src/tracker/mod.rs`: three consecutive
big-endian `u32` reads, wire order seeders (complete), completed (downloaded),
leechers (incomplete). -/
def tryGetScrape (buf : List Nat) : Except PacketError (Scrape × List Nat) := do
  let (seeders, buf) ← tryGetU32 buf
  let (completed, buf) ← tryGetU32 buf
  let (leechers, buf) ← tryGetU32 buf
  .ok ({ complete := seeders, incomplete := leechers, downloaded := completed }, buf)

/-- `TryBytes::try_get_all` from `src/util.rs`, specialised as in the code to
a given record extractor: repeat extraction while bytes remain; any failure
of the step (in particular on a partial trailing record) propagates.  The
loop is driven by a fuel argument; `buf.length + 1` is always enough fuel
because every successful step of the extractors used consumes at least one
byte. -/
def tryGetAllAux (step : List Nat → Except PacketError (α × List Nat)) :
    Nat → List Nat → Except PacketError (List α)
  | _, [] => .ok []
  | 0, _ :: _ => .error PacketError.Short
  | fuel + 1, buf => do
    let (a, rest) ← step buf
    let l ← tryGetAllAux step fuel rest
    .ok (a :: l)

/-- `try_get_all::<Scrape>` as used by the UDP scrape response decoder. -/
def tryGetAllScrape (buf : List Nat) : Except PacketError (List Scrape) :=
  tryGetAllAux tryGetScrape (buf.length + 1) buf

/-- Big-endian encoding of a value into `w` bytes, as written by
`bytes::BufMut::put_u32` / `put_u64`. -/
def toBytesBE (w v : Nat) : List Nat :=
  (List.range w).map (fun i => v / 256 ^ (w - 1 - i) % 256)

/-- `PROTOCOL_ID` from `src/tracker/udp.rs`. -/
def PROTOCOL_ID : Nat := 0x41727101980

/-- `CONNECT_ACTION` from `src/tracker/udp.rs`. -/
def CONNECT_ACTION : Nat := 0

/-- `SCRAPE_ACTION` from `src/tracker/udp.rs`. -/
def SCRAPE_ACTION : Nat := 2

/-- `ERROR_ACTION` from `src/tracker/udp.rs`. -/
def ERROR_ACTION : Nat := 3

/-- `UdpTrackerError` from `src/tracker/udp.rs`.  The I/O-carrying transport
variants are modelled as bare constructors (their payloads are opaque
`std::io::Error` values). -/
inductive UdpTrackerError where
  | Lookup
  | NoResolve
  | Bind
  | Connect
  | Send
  | Recv
  | PacketLen (e : PacketError)
  | BadAction (expected got : Nat)
  | XactionMismatch (expected got : Nat)
  deriving DecidableEq, Repr

/-- `TrackerError` from `src/tracker/mod.rs`; `Failure`'s message is kept as
the raw bytes the lossy UTF-8 conversion was applied to. -/
inductive TrackerError where
  | Timeout
  | Failure (msg : List Nat)
  | Udp (e : UdpTrackerError)
  deriving DecidableEq, Repr

/-- `From<UdpConnectionRequest> for Bytes` from `src/tracker/udp.rs`:
protocol magic, action 0, transaction ID. -/
def udpConnectionRequestBytes (transactionId : Nat) : List Nat :=
  toBytesBE 8 PROTOCOL_ID ++ toBytesBE 4 CONNECT_ACTION ++ toBytesBE 4 transactionId

/-- `From<UdpScrapeRequest> for Bytes` from `src/tracker/udp.rs`: connection
ID, action 2, transaction ID, then the raw 20 bytes of every requested
info-hash in the caller's order. -/
def udpScrapeRequestBytes (connectionId transactionId : Nat)
    (infoHashes : List InfoHash) : List Nat :=
  toBytesBE 8 connectionId ++ toBytesBE 4 SCRAPE_ACTION ++ toBytesBE 4 transactionId
    ++ (infoHashes.map InfoHash.bytes).flatten

/-- `UdpConnectionResponse` from `src/tracker/udp.rs`. -/
structure UdpConnectionResponse where
  transactionId : Nat
  connectionId : Nat
  deriving DecidableEq, Repr

/-- Rust's `?` on a `PacketError` result inside a `UdpTrackerError` function:
the `#[from]` conversion into the `PacketLen` variant. -/
def liftPacket (r : Except PacketError α) : Except UdpTrackerError α :=
  r.mapError .PacketLen

/-- `TryFrom<Bytes> for UdpConnectionResponse` from `src/tracker/udp.rs`:
read action (must be 0, else `BadAction`), transaction ID, connection ID;
trailing bytes are deliberately not rejected. -/
def udpConnectionResponseTryFrom (buf : List Nat) :
    Except UdpTrackerError UdpConnectionResponse := do
  let (action, buf) ← liftPacket (tryGetU32 buf)
  if action ≠ CONNECT_ACTION then
    .error (.BadAction CONNECT_ACTION action)
  else do
    let (transactionId, buf) ← liftPacket (tryGetU32 buf)
    let (connectionId, _) ← liftPacket (tryGetU64 buf)
    .ok { transactionId, connectionId }

/-- `UdpScrapeResponse` from `src/tracker/udp.rs`. -/
structure UdpScrapeResponse where
  transactionId : Nat
  scrapes : List Scrape
  deriving DecidableEq, Repr

/-- `TryFrom<Bytes> for UdpScrapeResponse` from `src/tracker/udp.rs`:
read action (must be 2, else `BadAction`), transaction ID, then scrape
records to the end of the packet via `try_get_all`. -/
def udpScrapeResponseTryFrom (buf : List Nat) :
    Except UdpTrackerError UdpScrapeResponse := do
  let (action, buf) ← liftPacket (tryGetU32 buf)
  if action ≠ SCRAPE_ACTION then
    .error (.BadAction SCRAPE_ACTION action)
  else do
    let (transactionId, buf) ← liftPacket (tryGetU32 buf)
    let scrapes ← liftPacket (tryGetAllScrape buf)
    .ok { transactionId, scrapes }

/-- `Response<T>` from `src/tracker/udp.rs`. -/
inductive UResponse (T : Type) where
  | Success (res : T)
  | Failure (msg : List Nat)
  deriving DecidableEq, Repr

/-- `Response::ok` from `src/tracker/udp.rs`. -/
def UResponse.okResult : UResponse T → Except TrackerError T
  | .Success res => .ok res
  | .Failure msg => .error (.Failure msg)

/-- `Response::from_bytes` from `src/tracker/udp.rs`: if the first four bytes
read as the error action 3, parse the rest as an error response (transaction
ID, then the message bytes to end of packet); otherwise hand the *original*
buffer to the given parser. -/
def responseFromBytes (parser : List Nat → Except UdpTrackerError T)
    (buf : List Nat) : Except UdpTrackerError (UResponse T) :=
  match tryGetU32 buf with
  | .ok (action, rest) =>
    if action = ERROR_ACTION then do
      let (_, message) ← liftPacket (tryGetU32 rest)
      .ok (.Failure message)
    else
      (parser buf).map .Success
  | .error _ => (parser buf).map .Success

/-- `ScrapeMap` (`src/tracker/mod.rs`) is a `HashMap<InfoHash, Scrape>`;
modelled as an association list whose keys are kept unique by
insert-with-overwrite, matching `HashMap::insert` semantics. -/
abbrev ScrapeMap := List (InfoHash × Scrape)

/-- `HashMap::insert`: overwrite the entry for an existing key, else append. -/
def insertSM (m : ScrapeMap) (k : InfoHash) (v : Scrape) : ScrapeMap :=
  if (List.any m (fun p => p.1 = k)) then
    List.map (fun p => if p.1 = k then (k, v) else p) m
  else m ++ [(k, v)]

/-- `HashMap::from_iter` over a list of key/value pairs: repeated
`HashMap::insert`, later pairs overwriting earlier ones. -/
def collectSM (l : List (InfoHash × Scrape)) : ScrapeMap :=
  List.foldl (fun m p => insertSM m p.1 p.2) [] l

/-- `Connection` from `src/tracker/udp.rs`: a BEP-15 pseudo-connection ID
with its expiration instant (seconds). -/
structure Connection where
  id : Nat
  expiration : Nat
  deriving DecidableEq, Repr

/-- The mutable state of `UdpTrackerSession` relevant to the scrape loop:
the cached pseudo-connection (`conn: Option<Connection>`). -/
structure SessionState where
  conn : Option Connection
  deriving DecidableEq, Repr

/-- Environment for one CONNECT exchange: the random transaction ID drawn for
the request, the outcome of the `chat` exchange (raw reply bytes or a
transport error), and the value of `Instant::now()` when the connection is
established (its expiration becomes `now + 60`). -/
structure ConnectEnv where
  transactionId : Nat
  chatResult : Except UdpTrackerError (List Nat)
  now : Nat
  deriving Repr

/-- The three possible outcomes of `timeout_at(conn.expiration, chat(msg))`:
the inner `chat` returned reply bytes, the inner `chat` returned a transport
error, or the connection deadline fired first. -/
inductive ChatOutcome where
  | reply (buf : List Nat)
  | err (e : UdpTrackerError)
  | deadline
  deriving Repr

/-- Environment for one iteration of the `scrape` loop: the value of
`Instant::now()` inside `get_connection`, the CONNECT environment used if a
(re)connect is needed, the fresh random transaction ID for the scrape
request, and the outcome of the deadline-bounded scrape exchange. -/
structure ScrapeIterEnv where
  nowAtGet : Nat
  connectEnv : ConnectEnv
  transactionId : Nat
  chatOutcome : ChatOutcome
  deriving Repr

/-- `UdpTrackerSession::connect` from `src/tracker/udp.rs`: send a connection
request via `chat`, parse the reply (error-action replies become `Failure`),
require the transaction ID to match, and return a connection expiring 60
seconds from now. -/
def connectExchange (env : ConnectEnv) : Except TrackerError Connection :=
  match env.chatResult with
  | .error e => .error (.Udp e)
  | .ok raw =>
    match responseFromBytes udpConnectionResponseTryFrom raw with
    | .error e => .error (.Udp e)
    | .ok resp =>
      match resp.okResult with
      | .error e => .error e
      | .ok r =>
        if r.transactionId ≠ env.transactionId then
          .error (.Udp (.XactionMismatch env.transactionId r.transactionId))
        else
          .ok { id := r.connectionId, expiration := env.now + 60 }

/-- `UdpTrackerSession::get_connection` from `src/tracker/udp.rs`: reuse the
cached connection if `Instant::now() < expiration`, otherwise run the CONNECT
exchange and cache its result. -/
def getConnection (st : SessionState) (env : ScrapeIterEnv) :
    Except TrackerError Connection × SessionState :=
  match st.conn with
  | some c =>
    if env.nowAtGet < c.expiration then (.ok c, st)
    else
      match connectExchange env.connectEnv with
      | .error e => (.error e, st)
      | .ok conn => (.ok conn, { st with conn := some conn })
  | none =>
    match connectExchange env.connectEnv with
    | .error e => (.error e, st)
    | .ok conn => (.ok conn, { st with conn := some conn })

/-- Result of one iteration of the `scrape` loop body: either the call
returns (`done`), or the loop `continue`s with an updated session state. -/
inductive StepResult where
  | done (r : Except TrackerError ScrapeMap)
  | again (st : SessionState)

/-- One iteration of the loop body of `UdpTrackerSession::scrape` from
`src/tracker/udp.rs`: ensure a connection, run the deadline-bounded scrape
exchange; a deadline timeout resets the cached connection and continues the
loop; a reply is parsed, checked for transaction-ID match, and zipped with
the requested hashes into the result map. -/
def scrapeStep (hashes : List InfoHash) (st : SessionState)
    (env : ScrapeIterEnv) : StepResult :=
  match getConnection st env with
  | (.error e, _) => .done (.error e)
  | (.ok conn, st1) =>
    let transactionId := env.transactionId
    let _msg := udpScrapeRequestBytes conn.id transactionId hashes
    match env.chatOutcome with
    | .deadline => .again { st1 with conn := none }
    | .err e => .done (.error (.Udp e))
    | .reply buf =>
      match responseFromBytes udpScrapeResponseTryFrom buf with
      | .error e => .done (.error (.Udp e))
      | .ok r =>
        match r.okResult with
        | .error e => .done (.error e)
        | .ok resp =>
          if resp.transactionId ≠ transactionId then
            .done (.error (.Udp (.XactionMismatch transactionId resp.transactionId)))
          else
            .done (.ok (collectSM (hashes.zip resp.scrapes)))

/-- The loop of `UdpTrackerSession::scrape`, driven by one environment value
per iteration; `none` means the loop was still running when the supplied
events ran out. -/
def scrapeLoop (hashes : List InfoHash) :
    SessionState → List ScrapeIterEnv → Option (Except TrackerError ScrapeMap)
  | _, [] => none
  | st, env :: rest =>
    match scrapeStep hashes st env with
    | .done r => some r
    | .again st1 => scrapeLoop hashes st1 rest

/-- `UdpTrackerSession::scrape` on a fresh session (`UdpTrackerSession::new`
starts with `conn: None`). -/
def sessionScrape (hashes : List InfoHash) (envs : List ScrapeIterEnv) :
    Option (Except TrackerError ScrapeMap) :=
  scrapeLoop hashes { conn := none } envs

/-- Outcome of one attempt of the `chat` loop: the `timeout` fired, or
`recv` completed with a reply or a transport error. -/
inductive AttemptOutcome where
  | timeout
  | recvd (r : Except UdpTrackerError (List Nat))
  deriving Repr

/-- `UdpTrackerSession::chat` from `src/tracker/udp.rs`, driven by one
`AttemptOutcome` per attempt.  Returns the trace of attempts — for each one
the message bytes sent and the receive-timeout in seconds (`15 << n`) — and
the final result (`none` while the loop is still running).  The counter `n`
starts at 0 and, after each timeout, is incremented only while below 8. -/
def chatRun (msg : List Nat) : Nat → List AttemptOutcome →
    List (List Nat × Nat) × Option (Except UdpTrackerError (List Nat))
  | _, [] => ([], none)
  | n, ev :: rest =>
    let attempt := (msg, 15 <<< n)
    match ev with
    | .recvd r => ([attempt], some r)
    | .timeout =>
      let n1 := if n < 8 then n + 1 else n
      let (tr, res) := chatRun msg n1 rest
      (attempt :: tr, res)

/-- `chat` proper: the attempt counter starts at `0`. -/
def chat (msg : List Nat) (events : List AttemptOutcome) :
    List (List Nat × Nat) × Option (Except UdpTrackerError (List Nat)) :=
  chatRun msg 0 events

/-! ## Bencode and the HTTP scrape response decoder -/

/-- A decoded bencode object, as produced by the `bendy` token decoder:
integers, byte strings, lists, and dictionaries (key/value pairs kept in
input order; sortedness is not enforced on decode). -/
inductive Bencode where
  | int (n : Int)
  | bytes (s : List Nat)
  | list (l : List Bencode)
  | dict (d : List (List Nat × Bencode))

/-- `bendy::decoding::Error`, at the granularity the decoder in
`src/tracker/http.rs` distinguishes: `missing_field(name)`,
`malformed_content` (with the context string attached by `.context(...)`),
a structure/token mismatch from `try_into_*` (with context), and
tokenizer-level parse failures inside `Decoder::next_object`. -/
inductive BendyError where
  | missingField (name : String)
  | malformedContent (ctx : String)
  | unexpectedToken (ctx : String)
  | parseFail
  deriving DecidableEq, Repr

/-- ASCII bytes of a string literal, for bencode key comparison against the
byte-string patterns `b"files"`, `b"complete"`, ... in the Rust `match`. -/
def ascii (s : String) : List Nat :=
  s.toList.map Char.toNat

/-- `u32::decode_bencode_object` (bendy): the object must be an integer that
parses as a `u32`; anything else is an error carrying the given context. -/
def decodeU32 (ctx : String) : Bencode → Except BendyError Nat
  | .int n => if 0 ≤ n ∧ n < 4294967296 then .ok n.toNat else .error (.malformedContent ctx)
  | _ => .error (.unexpectedToken ctx)

/-- The inner `while let Some(kv) = vdict.next_pair()` loop of
`HttpScrapeResponse::decode_bencode_object`: walk a files-entry dictionary
accumulating the `complete`, `downloaded` and `incomplete` fields (later
occurrences overwriting earlier ones); unrecognized keys are ignored. -/
def filesEntryLoop : List (List Nat × Bencode) → Option Nat → Option Nat → Option Nat →
    Except BendyError (Option Nat × Option Nat × Option Nat)
  | [], c, d, i => .ok (c, d, i)
  | (k, v) :: rest, c, d, i =>
    if k = ascii "complete" then do
      let n ← decodeU32 "files.*.complete" v
      filesEntryLoop rest (some n) d i
    else if k = ascii "downloaded" then do
      let n ← decodeU32 "files.*.downloaded" v
      filesEntryLoop rest c (some n) i
    else if k = ascii "incomplete" then do
      let n ← decodeU32 "files.*.incomplete" v
      filesEntryLoop rest c d (some n)
    else filesEntryLoop rest c d i

/-- Decoding of one files-entry value: it must be a dictionary
(`try_into_dictionary().context("files.<value>")`), and after the field loop
the three counters must all be present, checked in the order `complete`,
`downloaded`, `incomplete` (`missing_field` on the first absent one). -/
def decodeFilesEntry : Bencode → Except BendyError Scrape
  | .dict pairs => do
    let (c, d, i) ← filesEntryLoop pairs none none none
    match c with
    | none => .error (.missingField "files.*.complete")
    | some complete =>
      match d with
      | none => .error (.missingField "files.*.downloaded")
      | some downloaded =>
        match i with
        | none => .error (.missingField "files.*.incomplete")
        | some incomplete => .ok { complete, incomplete, downloaded }
  | _ => .error (.unexpectedToken "files.<value>")

/-- The `while let Some((k, v)) = fdict.next_pair()` loop over the `files`
dictionary: each key must be exactly 20 bytes (`InfoHash::try_from`, else
`malformed_content` with context `files.<key>`), each value a well-formed
files-entry; entries are inserted into the map in order (`HashMap::insert`). -/
def filesLoop : List (List Nat × Bencode) → ScrapeMap → Except BendyError ScrapeMap
  | [], m => .ok m
  | (k, v) :: rest, m =>
    if k.length = 20 then do
      let s ← decodeFilesEntry v
      filesLoop rest (insertSM m ⟨k⟩ s)
    else .error (.malformedContent "files.<key>")

/-- Decoding of the `files` value: must be a dictionary
(`try_into_dictionary().context("files")`), then the entry loop. -/
def decodeFilesVal : Bencode → Except BendyError ScrapeMap
  | .dict pairs => filesLoop pairs []
  | _ => .error (.unexpectedToken "files")

/-- `HttpScrapeResponse` from `src/tracker/http.rs`; the failure message is
kept as the bytes the lossy UTF-8 conversion was applied to. -/
inductive HttpScrapeResponse where
  | Success (m : ScrapeMap)
  | Failure (msg : List Nat)
  deriving DecidableEq, Repr

/-- The top-level `while let Some(kv) = dd.next_pair()` loop of
`HttpScrapeResponse::decode_bencode_object`: recognize `files` and
`failure reason` (later occurrences overwrite earlier ones, errors
short-circuit), ignore every other key.  A `failure reason` value must be a
byte string (`try_into_bytes().context("failure reason")`). -/
def topLoop : List (List Nat × Bencode) → Option ScrapeMap → Option (List Nat) →
    Except BendyError (Option ScrapeMap × Option (List Nat))
  | [], files, fr => .ok (files, fr)
  | (k, v) :: rest, files, fr =>
    if k = ascii "files" then do
      let m ← decodeFilesVal v
      topLoop rest (some m) fr
    else if k = ascii "failure reason" then
      match v with
      | .bytes s => topLoop rest files (some s)
      | _ => .error (.unexpectedToken "failure reason")
    else topLoop rest files fr

/-- `HttpScrapeResponse::decode_bencode_object` from `src/tracker/http.rs`:
the object must be a dictionary; after the key loop, `files` present without
`failure reason` is success, any present `failure reason` is failure, and
neither present is `missing_field("files")`. -/
def decodeHttpScrapeResponse : Bencode → Except BendyError HttpScrapeResponse
  | .dict pairs => do
    let (files, fr) ← topLoop pairs none none
    match files, fr with
    | some m, none => .ok (.Success m)
    | _, some msg => .ok (.Failure msg)
    | none, none => .error (.missingField "files")
  | _ => .error (.unexpectedToken "top-level")

/-- The value attached to the last occurrence of `key` among a dictionary's
pairs, if any — the decoder's key loop lets later occurrences overwrite
earlier ones, so this is the value that survives the loop. -/
def lastKeyVal (key : List Nat) : List (List Nat × Bencode) → Option Bencode
  | [] => none
  | (k, v) :: rest =>
    match lastKeyVal key rest with
    | some w => some w
    | none => if k = key then some v else none

/-- Value of a run of ASCII digits. -/
def digitsToNat (ds : List Nat) : Nat :=
  ds.foldl (fun a d => a * 10 + (d - 48)) 0

/-- Is a byte an ASCII digit? -/
def isDigitByte (b : Nat) : Bool :=
  decide (48 ≤ b ∧ b ≤ 57)

/-- Parse a bencode byte string `<len>:<bytes>` (the leading byte is already
known to be a digit at the call site). -/
def parseStr (buf : List Nat) : Except BendyError (List Nat × List Nat) :=
  let ds := buf.takeWhile isDigitByte
  let rest := buf.dropWhile isDigitByte
  if ds = [] then .error .parseFail
  else
    match rest with
    | 58 :: rest2 =>
      let n := digitsToNat ds
      if n ≤ rest2.length then .ok (rest2.take n, rest2.drop n)
      else .error .parseFail
    | _ => .error .parseFail

mutual

/-- `bendy`'s `Decoder::next_object` object grammar, as a recursive-descent
parser: integers `i…e`, byte strings `<len>:…`, lists `l…e` and dictionaries
`d…e` (whose keys must be byte strings), with the configured maximum nesting
depth for lists/dictionaries. The structural `fuel` argument only drives
termination: `buf.length + 1` is always sufficient because every recursive
call first consumes at least one byte. -/
def parseObjAux : Nat → Nat → List Nat → Except BendyError (Bencode × List Nat)
  | 0, _, _ => .error .parseFail
  | fuel + 1, depth, buf =>
    match buf with
    | [] => .error .parseFail
    | b :: rest =>
      if b = 105 then
        -- integer: optional minus sign, digits, 'e'
        let (neg, rest1) : Bool × List Nat :=
          match rest with
          | 45 :: r => (true, r)
          | _ => (false, rest)
        let ds := rest1.takeWhile isDigitByte
        let rest2 := rest1.dropWhile isDigitByte
        if ds = [] then .error .parseFail
        else
          match rest2 with
          | 101 :: rest3 =>
            let v : Int := if neg then -(digitsToNat ds : Int) else (digitsToNat ds : Int)
            .ok (.int v, rest3)
          | _ => .error .parseFail
      else if isDigitByte b then
        (parseStr buf).map (fun (s, r) => (.bytes s, r))
      else if b = 108 then
        if depth = 0 then .error .parseFail
        else parseListAux fuel (depth - 1) rest []
      else if b = 100 then
        if depth = 0 then .error .parseFail
        else parseDictAux fuel (depth - 1) rest []
      else .error .parseFail

/-- Item loop of a bencode list, up to the closing `e`. -/
def parseListAux : Nat → Nat → List Nat → List Bencode → Except BendyError (Bencode × List Nat)
  | 0, _, _, _ => .error .parseFail
  | fuel + 1, depth, buf, acc =>
    match buf with
    | [] => .error .parseFail
    | 101 :: rest => .ok (.list acc.reverse, rest)
    | buf => do
      let (obj, rest) ← parseObjAux fuel depth buf
      parseListAux fuel depth rest (obj :: acc)

/-- Pair loop of a bencode dictionary, up to the closing `e`; every key must
be a byte string. -/
def parseDictAux : Nat → Nat → List Nat → List (List Nat × Bencode) →
    Except BendyError (Bencode × List Nat)
  | 0, _, _, _ => .error .parseFail
  | fuel + 1, depth, buf, acc =>
    match buf with
    | [] => .error .parseFail
    | 101 :: rest => .ok (.dict acc.reverse, rest)
    | b :: _ =>
      if isDigitByte b then do
        let (key, rest1) ← parseStr buf
        let (v, rest2) ← parseObjAux fuel depth rest1
        parseDictAux fuel depth rest2 ((key, v) :: acc)
      else .error .parseFail

end

/-- `UnbencodeError` from `src/util.rs`. -/
inductive UnbencodeError where
  | Bendy (e : BendyError)
  | NoData
  | TrailingData
  deriving DecidableEq, Repr

/-- `decode_bencode::<HttpScrapeResponse>` from `src/util.rs`: decode one
top-level object (an empty input makes `next_object` yield `None`, hence
`NoData`), then fail with `TrailingData` unless the input is exhausted.
`maxDepth` is `T::EXPECTED_RECURSION_DEPTH` passed to `with_max_depth`. -/
def decodeBencodeScrape (maxDepth : Nat) (buf : List Nat) :
    Except UnbencodeError HttpScrapeResponse :=
  if buf.isEmpty then .error .NoData
  else
    match parseObjAux (buf.length + 1) maxDepth buf with
    | .error e => .error (.Bendy e)
    | .ok (obj, rest) =>
      match decodeHttpScrapeResponse obj with
      | .error e => .error (.Bendy e)
      | .ok v => if rest.isEmpty then .ok v else .error .TrailingData

/-! ## HTTP scrape URL construction -/

/-- The parts of a `url::Url` the scrape-URL construction touches.  The
path is kept as the raw string (`HttpTracker` URLs come from `Url::parse`,
whose stored path is already percent-encoded, so `set_path` on the
`replace`d string is a plain field update here). -/
structure Url where
  scheme : String
  host : String
  port : Option Nat
  path : String
  query : Option String
  fragment : Option String
  deriving DecidableEq, Repr

/-- Does `p` occur as a leading segment of `s`?  (Char-list analogue of
`str::starts_with`.) -/
def startsWithChars : List Char → List Char → Bool
  | [], _ => true
  | _ :: _, [] => false
  | p :: ps, c :: cs => p = c && startsWithChars ps cs

/-- Worker for `strReplace`: scan left to right, replacing each
non-overlapping occurrence of `pat` and resuming after it.  The structural
`fuel` argument only drives termination; `s.length` is always enough since
each step consumes at least one character when `pat` is nonempty. -/
def replaceAllAux (pat rep : List Char) : Nat → List Char → List Char
  | _, [] => []
  | 0, s => s
  | fuel + 1, c :: rest =>
    if pat ≠ [] ∧ startsWithChars pat (c :: rest) then
      rep ++ replaceAllAux pat rep fuel ((c :: rest).drop pat.length)
    else c :: replaceAllAux pat rep fuel rest

/-- Rust's `str::replace`: replace every non-overlapping occurrence of `pat`
with `rep`, scanning left to right (the pattern `"announce"` used by the
code is nonempty, so the empty-pattern edge case never arises). -/
def strReplace (s pat rep : String) : String :=
  ⟨replaceAllAux pat.toList rep.toList s.toList.length s.toList⟩

/-- One byte of `form_urlencoded` percent-encoding, as applied by the `url`
crate's query serializer: ASCII alphanumerics and `*-._` pass through, a
space becomes `+`, every other byte becomes `%XX` with uppercase hex. -/
def formByte (b : Nat) : String :=
  if b = 32 then "+"
  else if (48 ≤ b ∧ b ≤ 57) ∨ (65 ≤ b ∧ b ≤ 90) ∨ (97 ≤ b ∧ b ≤ 122)
      ∨ b = 42 ∨ b = 45 ∨ b = 46 ∨ b = 95 then
    String.singleton (Char.ofNat b)
  else
    let hex := fun (n : Nat) => String.singleton ("0123456789ABCDEF".toList.getD n ' ')
    "%" ++ hex (b / 16) ++ hex (b % 16)

/-- Percent-encoding of a whole byte sequence as opaque octets. -/
def percentEncodeBytes (bs : List Nat) : String :=
  String.join (bs.map formByte)

/-- `add_bytes_query_param` from `src/infohash.rs`: through the
`encoding_override` sentinel trick, `append_pair` appends `key=<value>` to
the URL's query with the raw bytes of `value` percent-encoded (the key,
`"info_hash"`, consists solely of pass-through characters). -/
def addBytesQueryParam (url : Url) (key : String) (value : List Nat) : Url :=
  let pair := key ++ "=" ++ percentEncodeBytes value
  { url with
    query := some (match url.query with
      | none => pair
      | some q => if q = "" then pair else q ++ "&" ++ pair) }

/-- The URL construction in `HttpTracker::scrape` (`src/tracker/http.rs`):
replace every occurrence of `"announce"` in the path with `"scrape"`
(`str::replace`), drop the fragment, then append one `info_hash` query
parameter per requested hash, in order. -/
def buildScrapeUrl (announce : Url) (hashes : List InfoHash) : Url :=
  let url := { announce with path := strReplace announce.path "announce" "scrape" }
  let url := { url with fragment := none }
  hashes.foldl (fun u ih => addBytesQueryParam u "info_hash" ih.bytes) url

/-- The serialized query parameters the scrape URL gains: one
`info_hash=<percent-encoded 20 raw bytes>` entry per requested hash, in
request order. -/
def scrapeParams (hashes : List InfoHash) : List String :=
  hashes.map (fun ih => "info_hash=" ++ percentEncodeBytes ih.bytes)

/-! ## Supporting lemmas: the binary cursor -/

theorem length_toBytesBE (w v : Nat) : (toBytesBE w v).length = w := by
  simp [toBytesBE]

theorem tryGetScrape_eq (buf : List Nat) :
    tryGetScrape buf =
      if 12 ≤ buf.length then
        .ok ({ complete := beNat (buf.take 4),
               incomplete := beNat ((buf.drop 8).take 4),
               downloaded := beNat ((buf.drop 4).take 4) }, buf.drop 12)
      else .error .Short := by
  simp only [tryGetScrape, tryGetU32, bind, Except.bind]
  by_cases h4 : 4 ≤ buf.length
  · simp only [if_pos h4]
    by_cases h8 : 4 ≤ (buf.drop 4).length
    · simp only [if_pos h8]
      by_cases h12 : 4 ≤ ((buf.drop 4).drop 4).length
      · have h12' : 12 ≤ buf.length := by simp at h12; omega
        rw [if_pos h12']
        simp only [if_pos h12, List.drop_drop]
        norm_num
        rw [if_pos (show (4:Nat) ≤ buf.length - 8 by omega)]
      · have h12' : ¬ 12 ≤ buf.length := by simp at h12 ⊢; omega
        simp only [if_neg h12, if_neg h12']
    · have h8' : ¬ 12 ≤ buf.length := by simp at h8 ⊢; omega
      simp only [if_neg h8, if_neg h8']
  · simp only [if_neg h4, if_neg (show ¬ 12 ≤ buf.length by omega)]


theorem tryGetAllAux_scrape_dvd :
    ∀ fuel (buf : List Nat), buf.length < fuel → 12 ∣ buf.length →
      ∃ l, tryGetAllAux tryGetScrape fuel buf = .ok l ∧ l.length = buf.length / 12 := by
  intro fuel
  induction fuel with
  | zero => intro buf h _; omega
  | succ f ih =>
    intro buf hlt hdvd
    match buf with
    | [] => exact ⟨[], rfl, by simp⟩
    | b :: bs =>
      have hlen : 12 ≤ (b :: bs).length := by
        rcases hdvd with ⟨k, hk⟩
        match k with
        | 0 => simp at hk
        | k + 1 => simp only [hk]; omega
      have h12 : 12 ∣ (b :: bs).length := hdvd
      have hrest : ((b :: bs).drop 12).length = (b :: bs).length - 12 := by simp
      obtain ⟨l, hl, hllen⟩ := ih ((b :: bs).drop 12)
        (by rw [hrest]; omega)
        (by rw [hrest]; exact Nat.dvd_sub' h12 (dvd_refl 12))
      refine ⟨{ complete := beNat ((b :: bs).take 4),
                incomplete := beNat (((b :: bs).drop 8).take 4),
                downloaded := beNat (((b :: bs).drop 4).take 4) } :: l, ?_, ?_⟩
      · simp only [tryGetAllAux, tryGetScrape_eq, if_pos hlen, bind, Except.bind, hl]
      · simp only [List.length_cons] at h12
        simp only [List.length_cons, hllen, hrest]
        omega

theorem tryGetAllAux_scrape_ndvd :
    ∀ fuel (buf : List Nat), buf.length < fuel → ¬ 12 ∣ buf.length →
      tryGetAllAux tryGetScrape fuel buf = .error .Short := by
  intro fuel
  induction fuel with
  | zero => intro buf h _; omega
  | succ f ih =>
    intro buf hlt hdvd
    match buf with
    | [] => simp at hdvd
    | b :: bs =>
      by_cases hlen : 12 ≤ (b :: bs).length
      · have hrest : ((b :: bs).drop 12).length = (b :: bs).length - 12 := by simp
        have hnd : ¬ 12 ∣ ((b :: bs).drop 12).length := by
          rw [hrest]
          intro hc
          have h3 := Nat.dvd_add hc (dvd_refl 12)
          rw [Nat.sub_add_cancel hlen] at h3
          exact hdvd h3
        have hrec := ih ((b :: bs).drop 12) (by rw [hrest]; omega) hnd
        simp only [tryGetAllAux, tryGetScrape_eq, if_pos hlen, bind, Except.bind, hrec]
      · simp only [tryGetAllAux, tryGetScrape_eq, if_neg hlen, bind, Except.bind]

theorem tryGetAllScrape_dvd {buf : List Nat} (h : 12 ∣ buf.length) :
    ∃ l, tryGetAllScrape buf = .ok l ∧ l.length = buf.length / 12 :=
  tryGetAllAux_scrape_dvd (buf.length + 1) buf (by omega) h

theorem tryGetAllScrape_ndvd {buf : List Nat} (h : ¬ 12 ∣ buf.length) :
    tryGetAllScrape buf = .error .Short :=
  tryGetAllAux_scrape_ndvd (buf.length + 1) buf (by omega) h


theorem udpScrapeResponseTryFrom_framed (tid : Nat) (payload : List Nat) :
    udpScrapeResponseTryFrom (toBytesBE 4 SCRAPE_ACTION ++ (toBytesBE 4 tid ++ payload)) =
      match tryGetAllScrape payload with
      | .error e => .error (.PacketLen e)
      | .ok scrapes => .ok { transactionId := beNat (toBytesBE 4 tid), scrapes := scrapes } := by
  have hA : (toBytesBE 4 SCRAPE_ACTION).length = 4 := length_toBytesBE 4 SCRAPE_ACTION
  have hB : (toBytesBE 4 tid).length = 4 := length_toBytesBE 4 tid
  have h1 : 4 ≤ (toBytesBE 4 SCRAPE_ACTION ++ (toBytesBE 4 tid ++ payload)).length := by
    simp [hA]
  have h2 : 4 ≤ (toBytesBE 4 tid ++ payload).length := by simp [hB]
  have hbe : beNat (toBytesBE 4 SCRAPE_ACTION) = SCRAPE_ACTION := rfl
  simp only [udpScrapeResponseTryFrom, liftPacket, tryGetU32, bind, Except.bind,
    Except.mapError, if_pos h1, List.take_left' hA, List.drop_left' hA, hbe,
    ne_eq, not_true_eq_false, if_false, if_pos h2, List.take_left' hB, List.drop_left' hB]
  cases h : tryGetAllScrape payload <;> simp [h]

/-! ## Claim theorems -/

/-- C5: for every input buffer, extraction at each width used (4 bytes for
`u32`, 8 for `u64`, 20 for an info-hash) fails with the truncation error
`Short` exactly when fewer bytes remain than the requested width (the
embedded functions are total, so no out-of-bounds access or panic is
possible), and `try_get_all` over 12-byte scrape records fails with that same
error exactly when the buffer length is not a multiple of 12, the failure
surfacing as the scrape response decoder's `PacketLen` decode failure. -/
theorem claim_C5 (buf : List Nat) :
    (tryGetU32 buf = .error .Short ↔ buf.length < 4)
  ∧ (tryGetU64 buf = .error .Short ↔ buf.length < 8)
  ∧ (tryGetInfoHash buf = .error .Short ↔ buf.length < 20)
  ∧ ((∃ l, tryGetAllScrape buf = .ok l ∧ l.length = buf.length / 12) ↔ 12 ∣ buf.length)
  ∧ (tryGetAllScrape buf = .error .Short ↔ ¬ 12 ∣ buf.length)
  ∧ (∀ tid, ¬ 12 ∣ buf.length →
      udpScrapeResponseTryFrom (toBytesBE 4 SCRAPE_ACTION ++ (toBytesBE 4 tid ++ buf))
        = .error (.PacketLen .Short)) := by
  refine ⟨?_, ?_, ?_, ?_, ?_, ?_⟩
  · by_cases h : 4 ≤ buf.length <;> simp [tryGetU32, h] <;> omega
  · by_cases h : 8 ≤ buf.length <;> simp [tryGetU64, h] <;> omega
  · by_cases h : 20 ≤ buf.length <;> simp [tryGetInfoHash, h] <;> omega
  · constructor
    · rintro ⟨l, hl, -⟩
      by_contra hnd
      rw [tryGetAllScrape_ndvd hnd] at hl
      exact absurd hl (by simp)
    · exact fun h => tryGetAllScrape_dvd h
  · constructor
    · intro h hd
      obtain ⟨l, hl, -⟩ := tryGetAllScrape_dvd hd
      rw [hl] at h
      exact absurd h (by simp)
    · exact tryGetAllScrape_ndvd
  · intro tid hnd
    rw [udpScrapeResponseTryFrom_framed, tryGetAllScrape_ndvd hnd]

/-- Witness for C5 at concrete inputs: a 3-byte buffer is too short for a
`u32`, and a 13-byte record payload (not a multiple of 12) fails
`try_get_all` and the whole scrape-response decode with the truncation
error. -/
theorem claim_C5_witness :
    tryGetU32 [1, 2, 3] = .error .Short
  ∧ tryGetAllScrape (List.replicate 13 0) = .error .Short
  ∧ udpScrapeResponseTryFrom
      (toBytesBE 4 SCRAPE_ACTION ++ (toBytesBE 4 7 ++ List.replicate 13 0))
      = .error (.PacketLen .Short) :=
  ⟨(claim_C5 [1, 2, 3]).1.mpr (by decide),
   (claim_C5 (List.replicate 13 0)).2.2.2.2.1.mpr (by decide),
   (claim_C5 (List.replicate 13 0)).2.2.2.2.2 7 (by decide)⟩

/-- C9: decoding a UDP connect response succeeds for any packet of at least
16 bytes whose first four bytes read as action 0, returning the transaction
ID from bytes 4-7 and the connection ID from bytes 8-15 while ignoring any
bytes past the 16th (no end-of-packet check); a packet whose action field is
present but not 0 fails with `BadAction` (this branch wins over the length
check), and an otherwise-valid packet shorter than 16 bytes fails with the
truncation error. -/
theorem claim_C9 (buf : List Nat) :
    (16 ≤ buf.length → beNat (buf.take 4) = CONNECT_ACTION →
      udpConnectionResponseTryFrom buf =
        .ok { transactionId := beNat ((buf.drop 4).take 4),
              connectionId := beNat ((buf.drop 8).take 8) })
  ∧ (4 ≤ buf.length → beNat (buf.take 4) ≠ CONNECT_ACTION →
      udpConnectionResponseTryFrom buf
        = .error (.BadAction CONNECT_ACTION (beNat (buf.take 4))))
  ∧ (buf.length < 16 → (buf.length < 4 ∨ beNat (buf.take 4) = CONNECT_ACTION) →
      udpConnectionResponseTryFrom buf = .error (.PacketLen .Short)) := by
  refine ⟨?_, ?_, ?_⟩
  · intro h16 hact
    have d1 : 4 ≤ buf.length := by omega
    have d2 : 4 ≤ (buf.drop 4).length := by simp; omega
    have d3 : 8 ≤ ((buf.drop 4).drop 4).length := by simp; omega
    simp only [udpConnectionResponseTryFrom, liftPacket, tryGetU32, tryGetU64, bind, Except.bind,
      Except.mapError, if_pos d1, hact, ne_eq, not_true_eq_false, if_false, if_pos d2, if_pos d3,
      List.drop_drop]
    norm_num
    rw [if_pos (show (8:Nat) ≤ buf.length - 8 by omega)]
  · intro h4 hact
    simp only [udpConnectionResponseTryFrom, liftPacket, tryGetU32, bind, Except.bind,
      Except.mapError, if_pos h4]
    rw [if_pos hact]
  · intro h16 hcase
    by_cases h4 : 4 ≤ buf.length
    · have hact : beNat (buf.take 4) = CONNECT_ACTION := by
        rcases hcase with h | h
        · omega
        · exact h
      by_cases h8 : 8 ≤ buf.length
      · have d2 : 4 ≤ (buf.drop 4).length := by simp; omega
        have d3 : ¬ 8 ≤ ((buf.drop 4).drop 4).length := by simp; omega
        simp only [udpConnectionResponseTryFrom, liftPacket, tryGetU32, tryGetU64, bind,
          Except.bind, Except.mapError, if_pos h4, hact, ne_eq, not_true_eq_false, if_false,
          if_pos d2, if_neg d3]
      · have d2 : ¬ 4 ≤ (buf.drop 4).length := by simp; omega
        simp only [udpConnectionResponseTryFrom, liftPacket, tryGetU32, bind,
          Except.bind, Except.mapError, if_pos h4, hact, ne_eq, not_true_eq_false, if_false,
          if_neg d2]
    · simp only [udpConnectionResponseTryFrom, liftPacket, tryGetU32, bind, Except.bind,
        Except.mapError, if_neg h4]

/-- Witness for C9: the repository's own connect-response test vector with an
extra trailing byte still decodes to transaction ID `0x5C310D73` and
connection ID `0x5CCBDFDB157C25BA`; a wrong action fails with `BadAction`;
a 10-byte packet with action 0 fails with the truncation error. -/
theorem claim_C9_witness :
    udpConnectionResponseTryFrom
      [0x00, 0x00, 0x00, 0x00, 0x5C, 0x31, 0x0D, 0x73,
       0x5C, 0xCB, 0xDF, 0xDB, 0x15, 0x7C, 0x25, 0xBA, 0xFF]
      = .ok { transactionId := 0x5C310D73, connectionId := 0x5CCBDFDB157C25BA }
  ∧ udpConnectionResponseTryFrom [0, 0, 0, 1, 0, 0, 0, 0]
      = .error (.BadAction CONNECT_ACTION 1)
  ∧ udpConnectionResponseTryFrom [0, 0, 0, 0, 1, 2, 3, 4, 5, 6]
      = .error (.PacketLen .Short) :=
  ⟨(claim_C9 _).1 (by decide) (by decide),
   (claim_C9 _).2.1 (by decide) (by decide),
   (claim_C9 _).2.2 (by decide) (by decide)⟩

theorem chatRun_trace :
    ∀ (events : List AttemptOutcome) (msg : List Nat) (n : Nat), n ≤ 8 →
      ∀ k p, (chatRun msg n events).1.get? k = some p → p = (msg, 15 * 2 ^ min (n + k) 8) := by
  intro events
  induction events with
  | nil => intro msg n hn k p h; simp [chatRun] at h
  | cons ev rest ih =>
    intro msg n hn k p h
    have hmin0 : min (n + 0) 8 = n := by omega
    cases ev with
    | recvd r =>
      simp only [chatRun] at h
      match k, h with
      | 0, h =>
        simp only [List.get?_cons_zero, Option.some.injEq] at h
        rw [← h, Nat.shiftLeft_eq, hmin0]
      | k + 1, h => simp at h
    | timeout =>
      simp only [chatRun] at h
      match k, h with
      | 0, h =>
        simp only [List.get?_cons_zero, Option.some.injEq] at h
        rw [← h, Nat.shiftLeft_eq, hmin0]
      | k + 1, h =>
        simp only [List.get?_cons_succ] at h
        have hn1 : (if n < 8 then n + 1 else n) ≤ 8 := by split <;> omega
        have hres := ih msg (if n < 8 then n + 1 else n) hn1 k p h
        have hmin : min ((if n < 8 then n + 1 else n) + k) 8 = min (n + (k + 1)) 8 := by
          split <;> omega
        rw [hres, hmin]

theorem chatRun_all_timeout :
    ∀ (events : List AttemptOutcome) (msg : List Nat) (n : Nat),
      (∀ ev ∈ events, ev = .timeout) →
      (chatRun msg n events).2 = none ∧ (chatRun msg n events).1.length = events.length := by
  intro events
  induction events with
  | nil => intro msg n _; simp [chatRun]
  | cons ev rest ih =>
    intro msg n hall
    have hev : ev = .timeout := hall ev (by simp)
    subst hev
    have hrest := ih msg (if n < 8 then n + 1 else n) (fun e he => hall e (by simp [he]))
    simp only [chatRun]
    exact ⟨hrest.1, by simp [hrest.2]⟩

/-- C4: in the retry exchange `chat`, the receive timeout of attempt `k`
(0-indexed) is exactly `15 * 2 ^ min k 8` seconds, the identical message
bytes are resent on every attempt, and when every attempt times out the loop
never returns on its own — it keeps retrying (one trace entry per supplied
timeout event) at the capped interval until an outer deadline cuts it off. -/
theorem claim_C4 (msg : List Nat) (events : List AttemptOutcome) :
    (∀ k p, (chat msg events).1.get? k = some p → p = (msg, 15 * 2 ^ min k 8))
  ∧ ((∀ ev ∈ events, ev = .timeout) →
      (chat msg events).2 = none ∧ (chat msg events).1.length = events.length) := by
  constructor
  · intro k p h
    have := chatRun_trace events msg 0 (by omega) k p h
    simpa using this
  · exact chatRun_all_timeout events msg 0

/-- Witness for C4: with ten straight timeouts the traced timeouts are
15, 30, 60, 120, 240, 480, 960, 1920, 3840 and again 3840 seconds (the
counter stops growing at `2 ^ 8`), the same message is sent every time, and
the exchange is still running after the last timeout. -/
theorem claim_C4_witness :
    ([9], (3840 : Nat)) = ([9], 15 * 2 ^ min 9 8)
  ∧ (chat [9] (List.replicate 10 .timeout)).2 = none
  ∧ (chat [9] (List.replicate 10 .timeout)).1.length = 10 :=
  ⟨(claim_C4 [9] (List.replicate 10 .timeout)).1 9 ([9], 3840) (by decide),
   ((claim_C4 [9] (List.replicate 10 .timeout)).2
      (fun ev he => List.eq_of_mem_replicate he)).1,
   ((claim_C4 [9] (List.replicate 10 .timeout)).2
      (fun ev he => List.eq_of_mem_replicate he)).2⟩

/-- C2: a cached pseudo-connection is reused exactly while `Instant::now()`
is still before its expiration (a successful CONNECT sets the expiration to
the connect time plus 60 seconds); once the expiration has passed the
connection is renegotiated instead, and if the connection deadline fires
during the scrape exchange the session drops the cached connection and the
loop continues from the CONNECT step instead of failing the call. -/
theorem claim_C2 :
    (∀ (st : SessionState) (env : ScrapeIterEnv) (c : Connection),
      st.conn = some c → env.nowAtGet < c.expiration →
      getConnection st env = (.ok c, st))
  ∧ (∀ (st : SessionState) (env : ScrapeIterEnv) (c : Connection),
      st.conn = some c → ¬ env.nowAtGet < c.expiration →
      (getConnection st env).1 = connectExchange env.connectEnv)
  ∧ (∀ (cenv : ConnectEnv) (conn : Connection),
      connectExchange cenv = .ok conn → conn.expiration = cenv.now + 60)
  ∧ (∀ (hashes : List InfoHash) (st : SessionState) (env : ScrapeIterEnv)
      (conn : Connection) (st1 : SessionState),
      getConnection st env = (.ok conn, st1) → env.chatOutcome = .deadline →
      scrapeStep hashes st env = .again { conn := none })
  ∧ (∀ (hashes : List InfoHash) (st : SessionState) (env : ScrapeIterEnv)
      (rest : List ScrapeIterEnv) (conn : Connection) (st1 : SessionState),
      getConnection st env = (.ok conn, st1) → env.chatOutcome = .deadline →
      scrapeLoop hashes st (env :: rest) = scrapeLoop hashes { conn := none } rest) := by
  have hexp : ∀ (cenv : ConnectEnv) (conn : Connection),
      connectExchange cenv = .ok conn → conn.expiration = cenv.now + 60 := by
    intro cenv conn h
    unfold connectExchange at h
    cases hc : cenv.chatResult with
    | error e => simp only [hc] at h; exact absurd h (by simp)
    | ok raw =>
      simp only [hc] at h
      cases hr : responseFromBytes udpConnectionResponseTryFrom raw with
      | error e => simp only [hr] at h; exact absurd h (by simp)
      | ok resp =>
        simp only [hr] at h
        cases resp with
        | Failure msg => simp [UResponse.okResult] at h
        | Success r =>
          simp only [UResponse.okResult] at h
          by_cases hne : r.transactionId ≠ cenv.transactionId
          · rw [if_pos hne] at h; simp at h
          · rw [if_neg hne] at h
            simp only [Except.ok.injEq] at h
            rw [← h]
  have hstep : ∀ (hashes : List InfoHash) (st : SessionState) (env : ScrapeIterEnv)
      (conn : Connection) (st1 : SessionState),
      getConnection st env = (.ok conn, st1) → env.chatOutcome = .deadline →
      scrapeStep hashes st env = .again { conn := none } := by
    intro hashes st env conn st1 hget hdl
    unfold scrapeStep
    rw [hget, hdl]
  refine ⟨?_, ?_, hexp, hstep, ?_⟩
  · intro st env c h1 h2
    simp only [getConnection, h1, if_pos h2]
  · intro st env c h1 h2
    simp only [getConnection, h1, if_neg h2]
    cases connectExchange env.connectEnv <;> simp
  · intro hashes st env rest conn st1 hget hdl
    have h := hstep hashes st env conn st1 hget hdl
    conv_lhs => rw [scrapeLoop, h]

/-- Witness for C2 at concrete inputs: a connection expiring at instant 100
is reused at instant 99; a successful CONNECT at instant 40 yields
expiration 100; and with a live connection the deadline outcome makes the
loop continue with the cache cleared. -/
theorem claim_C2_witness :
    getConnection ⟨some ⟨77, 100⟩⟩ ⟨99, ⟨5, .error .Recv, 0⟩, 7, .deadline⟩
      = (.ok ⟨77, 100⟩, ⟨some ⟨77, 100⟩⟩)
  ∧ (⟨777, 100⟩ : Connection).expiration = (⟨5, .ok (toBytesBE 4 CONNECT_ACTION
      ++ toBytesBE 4 5 ++ toBytesBE 8 777), 40⟩ : ConnectEnv).now + 60
  ∧ scrapeLoop [] ⟨some ⟨77, 100⟩⟩ [⟨99, ⟨5, .error .Recv, 0⟩, 7, .deadline⟩]
      = scrapeLoop [] ⟨none⟩ [] :=
  ⟨claim_C2.1 ⟨some ⟨77, 100⟩⟩ ⟨99, ⟨5, .error .Recv, 0⟩, 7, .deadline⟩ ⟨77, 100⟩ rfl (by decide),
   claim_C2.2.2.1 ⟨5, .ok (toBytesBE 4 CONNECT_ACTION ++ toBytesBE 4 5 ++ toBytesBE 8 777), 40⟩
     ⟨777, 100⟩ rfl,
   claim_C2.2.2.2.2 [] ⟨some ⟨77, 100⟩⟩ ⟨99, ⟨5, .error .Recv, 0⟩, 7, .deadline⟩ [] ⟨77, 100⟩
     ⟨some ⟨77, 100⟩⟩ rfl rfl⟩

/-- C3: in both the SCRAPE and CONNECT exchanges, a successfully parsed
response whose transaction ID differs from the one just sent makes the call
fail with `XactionMismatch` naming the sent and received IDs; the scrape
loop returns that error immediately (no retry, and no partial map), and a
mismatched CONNECT aborts the connect exchange the same way. -/
theorem claim_C3 :
    (∀ (hashes : List InfoHash) (st : SessionState) (env : ScrapeIterEnv)
       (rest : List ScrapeIterEnv) (buf : List Nat) (resp : UdpScrapeResponse)
       (conn : Connection) (st1 : SessionState),
      getConnection st env = (.ok conn, st1) →
      env.chatOutcome = .reply buf →
      responseFromBytes udpScrapeResponseTryFrom buf = .ok (.Success resp) →
      resp.transactionId ≠ env.transactionId →
      scrapeStep hashes st env
        = .done (.error (.Udp (.XactionMismatch env.transactionId resp.transactionId)))
      ∧ scrapeLoop hashes st (env :: rest)
        = some (.error (.Udp (.XactionMismatch env.transactionId resp.transactionId))))
  ∧ (∀ (cenv : ConnectEnv) (raw : List Nat) (r : UdpConnectionResponse),
      cenv.chatResult = .ok raw →
      responseFromBytes udpConnectionResponseTryFrom raw = .ok (.Success r) →
      r.transactionId ≠ cenv.transactionId →
      connectExchange cenv
        = .error (.Udp (.XactionMismatch cenv.transactionId r.transactionId))) := by
  constructor
  · intro hashes st env rest buf resp conn st1 hget hout hresp hne
    have hstep : scrapeStep hashes st env
        = .done (.error (.Udp (.XactionMismatch env.transactionId resp.transactionId))) := by
      simp only [scrapeStep, hget, hout, hresp, UResponse.okResult]
      rw [if_pos hne]
    refine ⟨hstep, ?_⟩
    conv_lhs => rw [scrapeLoop, hstep]
  · intro cenv raw r hc hr hne
    simp only [connectExchange, hc, hr, UResponse.okResult]
    rw [if_pos hne]

/-- Witness for C3: a scrape reply carrying transaction ID 9 against a sent
ID of 7 makes the loop body fail with `XactionMismatch 7 9`, and a connect
reply carrying ID 6 against a sent ID of 5 fails with `XactionMismatch 5 6`. -/
theorem claim_C3_witness :
    scrapeStep [] ⟨some ⟨77, 100⟩⟩
      ⟨99, ⟨5, .error .Recv, 0⟩, 7, .reply (toBytesBE 4 SCRAPE_ACTION ++ toBytesBE 4 9)⟩
      = .done (.error (.Udp (.XactionMismatch 7 9)))
  ∧ connectExchange ⟨5, .ok (toBytesBE 4 CONNECT_ACTION ++ toBytesBE 4 6 ++ toBytesBE 8 777), 40⟩
      = .error (.Udp (.XactionMismatch 5 6)) :=
  ⟨(claim_C3.1 [] ⟨some ⟨77, 100⟩⟩
      ⟨99, ⟨5, .error .Recv, 0⟩, 7, .reply (toBytesBE 4 SCRAPE_ACTION ++ toBytesBE 4 9)⟩
      [] (toBytesBE 4 SCRAPE_ACTION ++ toBytesBE 4 9) ⟨9, []⟩ ⟨77, 100⟩ ⟨some ⟨77, 100⟩⟩
      rfl rfl rfl (by decide)).1,
   claim_C3.2 ⟨5, .ok (toBytesBE 4 CONNECT_ACTION ++ toBytesBE 4 6 ++ toBytesBE 8 777), 40⟩
     (toBytesBE 4 CONNECT_ACTION ++ toBytesBE 4 6 ++ toBytesBE 8 777) ⟨6, 777⟩
     rfl rfl (by decide)⟩

/-- Counterexample to C1 as stated: a concrete UDP scrape call that requests
two info-hashes and receives a well-formed response carrying only ONE
12-byte record does not fail with a decode error — it succeeds and returns a
map built by silently truncating the positional pairing (one entry, for the
first hash only).  The first conjunct shows the parsed response indeed holds
exactly one record for the two requested hashes. -/
theorem claim_C1_counterexample :
    udpScrapeResponseTryFrom (toBytesBE 4 SCRAPE_ACTION ++ toBytesBE 4 7
        ++ (toBytesBE 4 1 ++ toBytesBE 4 2 ++ toBytesBE 4 3))
      = .ok { transactionId := 7,
              scrapes := [{ complete := 1, incomplete := 3, downloaded := 2 }] }
  ∧ sessionScrape [⟨List.replicate 20 170⟩, ⟨List.replicate 20 187⟩]
      [⟨0, ⟨5, .ok (toBytesBE 4 CONNECT_ACTION ++ toBytesBE 4 5 ++ toBytesBE 8 777), 40⟩,
        7, .reply (toBytesBE 4 SCRAPE_ACTION ++ toBytesBE 4 7
          ++ (toBytesBE 4 1 ++ toBytesBE 4 2 ++ toBytesBE 4 3))⟩]
      = some (.ok [(⟨List.replicate 20 170⟩,
          { complete := 1, incomplete := 3, downloaded := 2 })]) :=
  ⟨rfl, rfl⟩

/-- C1 (amended): the UDP scrape call performs no record-count check at all.
A successfully parsed scrape response with a matching transaction ID makes
the call return the map obtained by zipping the requested hashes positionally
with the parsed records, truncated to the shorter of the two lists (extra
records, or extra hashes, are silently dropped); a decode failure
(`PacketLen`) arises only when the record payload is not a whole number of
12-byte records, a condition independent of the number of hashes requested. -/
theorem claim_C1 (hashes : List InfoHash) (st : SessionState) (env : ScrapeIterEnv)
    (rest : List ScrapeIterEnv) (buf : List Nat) (resp : UdpScrapeResponse)
    (conn : Connection) (st1 : SessionState)
    (hget : getConnection st env = (.ok conn, st1))
    (hout : env.chatOutcome = .reply buf)
    (hresp : responseFromBytes udpScrapeResponseTryFrom buf = .ok (.Success resp))
    (htid : resp.transactionId = env.transactionId) :
    scrapeStep hashes st env = .done (.ok (collectSM (hashes.zip resp.scrapes)))
  ∧ scrapeLoop hashes st (env :: rest) = some (.ok (collectSM (hashes.zip resp.scrapes)))
  ∧ (hashes.zip resp.scrapes).length = min hashes.length resp.scrapes.length := by
  have hstep : scrapeStep hashes st env
      = .done (.ok (collectSM (hashes.zip resp.scrapes))) := by
    simp only [scrapeStep, hget, hout, hresp, UResponse.okResult]
    rw [if_neg (by simp [htid])]
  refine ⟨hstep, ?_, List.length_zip hashes resp.scrapes⟩
  conv_lhs => rw [scrapeLoop, hstep]

/-- Witness for the amended C1 at the counterexample's scenario: the loop
body returns the zip-truncated map. -/
theorem claim_C1_witness :
    scrapeStep [⟨List.replicate 20 170⟩, ⟨List.replicate 20 187⟩] ⟨none⟩
      ⟨0, ⟨5, .ok (toBytesBE 4 CONNECT_ACTION ++ toBytesBE 4 5 ++ toBytesBE 8 777), 40⟩,
        7, .reply (toBytesBE 4 SCRAPE_ACTION ++ toBytesBE 4 7
          ++ (toBytesBE 4 1 ++ toBytesBE 4 2 ++ toBytesBE 4 3))⟩
      = .done (.ok (collectSM ([⟨List.replicate 20 170⟩, ⟨List.replicate 20 187⟩].zip
          [{ complete := 1, incomplete := 3, downloaded := 2 }]))) :=
  (claim_C1 [⟨List.replicate 20 170⟩, ⟨List.replicate 20 187⟩] ⟨none⟩
      ⟨0, ⟨5, .ok (toBytesBE 4 CONNECT_ACTION ++ toBytesBE 4 5 ++ toBytesBE 8 777), 40⟩,
        7, .reply (toBytesBE 4 SCRAPE_ACTION ++ toBytesBE 4 7
          ++ (toBytesBE 4 1 ++ toBytesBE 4 2 ++ toBytesBE 4 3))⟩
      [] (toBytesBE 4 SCRAPE_ACTION ++ toBytesBE 4 7
          ++ (toBytesBE 4 1 ++ toBytesBE 4 2 ++ toBytesBE 4 3))
      ⟨7, [{ complete := 1, incomplete := 3, downloaded := 2 }]⟩
      ⟨777, 100⟩ ⟨some ⟨777, 100⟩⟩ rfl rfl rfl rfl).1

theorem keys_insertSM (m : ScrapeMap) (k : InfoHash) (v : Scrape) :
    (insertSM m k v).map Prod.fst
      = if m.any (fun p => p.1 = k) then m.map Prod.fst else m.map Prod.fst ++ [k] := by
  unfold insertSM
  split
  · rw [List.map_map]
    apply List.map_congr_left
    intro p _
    by_cases hpk : p.1 = k <;> simp [hpk]
  · simp

theorem nodup_keys_insertSM (m : ScrapeMap) (k : InfoHash) (v : Scrape)
    (h : (m.map Prod.fst).Nodup) : ((insertSM m k v).map Prod.fst).Nodup := by
  rw [keys_insertSM]
  split
  · exact h
  · rename_i hnone
    have hk : k ∉ m.map Prod.fst := by
      intro hmem
      obtain ⟨p, hp, hpk⟩ := List.mem_map.mp hmem
      apply hnone
      rw [List.any_eq_true]
      exact ⟨p, hp, by simp [hpk]⟩
    exact List.Nodup.append h (List.nodup_singleton k) (fun a ha hb => by
      rw [List.mem_singleton] at hb
      exact hk (hb ▸ ha))

theorem collectSM_keys :
    ∀ (l : List (InfoHash × Scrape)) (acc : ScrapeMap),
      (∀ x ∈ (List.foldl (fun m p => insertSM m p.1 p.2) acc l).map Prod.fst,
        x ∈ acc.map Prod.fst ∨ x ∈ l.map Prod.fst)
      ∧ ((acc.map Prod.fst).Nodup →
          ((List.foldl (fun m p => insertSM m p.1 p.2) acc l).map Prod.fst).Nodup) := by
  intro l
  induction l with
  | nil => intro acc; exact ⟨fun x hx => .inl hx, fun h => h⟩
  | cons p rest ih =>
    intro acc
    constructor
    · intro x hx
      rcases (ih (insertSM acc p.1 p.2)).1 x hx with h | h
      · rw [keys_insertSM] at h
        split at h
        · exact .inl h
        · rcases List.mem_append.mp h with h1 | h1
          · exact .inl h1
          · simp only [List.mem_singleton] at h1
            exact .inr (by simp [h1])
      · exact .inr (by simp [h])
    · intro hnd
      exact (ih (insertSM acc p.1 p.2)).2 (nodup_keys_insertSM acc p.1 p.2 hnd)

theorem scrapeStep_done_ok (hashes : List InfoHash) (st : SessionState)
    (env : ScrapeIterEnv) (m : ScrapeMap)
    (h : scrapeStep hashes st env = .done (.ok m)) :
    ∃ scrapes, m = collectSM (hashes.zip scrapes) := by
  unfold scrapeStep at h
  rcases hget : getConnection st env with ⟨r, st1⟩
  cases r with
  | error e => simp only [hget] at h; simp at h
  | ok conn =>
    simp only [hget] at h
    cases hout : env.chatOutcome with
    | deadline => simp only [hout] at h; simp at h
    | err e => simp only [hout] at h; simp at h
    | reply buf =>
      simp only [hout] at h
      cases hresp : responseFromBytes udpScrapeResponseTryFrom buf with
      | error e => simp only [hresp] at h; simp at h
      | ok r2 =>
        simp only [hresp] at h
        cases r2 with
        | Failure msg => simp [UResponse.okResult] at h
        | Success resp =>
          simp only [UResponse.okResult] at h
          by_cases hne : resp.transactionId ≠ env.transactionId
          · rw [if_pos hne] at h; simp at h
          · rw [if_neg hne] at h
            simp only [StepResult.done.injEq, Except.ok.injEq] at h
            exact ⟨resp.scrapes, h.symm⟩

theorem scrapeLoop_some_ok (hashes : List InfoHash) :
    ∀ (envs : List ScrapeIterEnv) (st : SessionState) (m : ScrapeMap),
      scrapeLoop hashes st envs = some (.ok m) →
      ∃ scrapes, m = collectSM (hashes.zip scrapes) := by
  intro envs
  induction envs with
  | nil => intro st m h; simp [scrapeLoop] at h
  | cons env rest ih =>
    intro st m h
    rw [scrapeLoop] at h
    cases hstep : scrapeStep hashes st env with
    | done r =>
      rw [hstep] at h
      simp only [Option.some.injEq] at h
      exact scrapeStep_done_ok hashes st env m (by rw [hstep, h])
    | again st1 =>
      rw [hstep] at h
      exact ih st1 m h

/-- C10: whenever a UDP scrape call returns a map, every key of that map is
one of the requested info-hashes (the UDP path never invents a key), and the
keys are pairwise distinct — duplicate requested hashes collapse to at most
one entry per distinct hash (`HashMap` insert semantics). -/
theorem claim_C10 (hashes : List InfoHash) (envs : List ScrapeIterEnv) (m : ScrapeMap)
    (h : sessionScrape hashes envs = some (.ok m)) :
    (m.map Prod.fst) ⊆ hashes ∧ (m.map Prod.fst).Nodup := by
  obtain ⟨scrapes, rfl⟩ := scrapeLoop_some_ok hashes envs ⟨none⟩ m h
  constructor
  · intro x hx
    rcases (collectSM_keys (hashes.zip scrapes) []).1 x hx with h1 | h1
    · simp at h1
    · obtain ⟨p, hp, hpk⟩ := List.mem_map.mp h1
      rw [← hpk]
      exact (List.of_mem_zip hp).1
  · exact (collectSM_keys (hashes.zip scrapes) []).2 (by simp)

/-- Witness for C10: a call that requests the same hash twice and receives
two records yields a one-entry map whose key set is contained in the request
and duplicate-free. -/
theorem claim_C10_witness :
    (([(⟨List.replicate 20 170⟩, { complete := 4, incomplete := 6, downloaded := 5 })]
        : ScrapeMap).map Prod.fst)
      ⊆ [⟨List.replicate 20 170⟩, ⟨List.replicate 20 170⟩]
  ∧ (([(⟨List.replicate 20 170⟩, { complete := 4, incomplete := 6, downloaded := 5 })]
        : ScrapeMap).map Prod.fst).Nodup :=
  claim_C10 [⟨List.replicate 20 170⟩, ⟨List.replicate 20 170⟩]
    [⟨0, ⟨5, .ok (toBytesBE 4 CONNECT_ACTION ++ toBytesBE 4 5 ++ toBytesBE 8 777), 40⟩,
      7, .reply (toBytesBE 4 SCRAPE_ACTION ++ toBytesBE 4 7
        ++ (toBytesBE 4 1 ++ toBytesBE 4 2 ++ toBytesBE 4 3
          ++ (toBytesBE 4 4 ++ toBytesBE 4 5 ++ toBytesBE 4 6)))⟩]
    [(⟨List.replicate 20 170⟩, { complete := 4, incomplete := 6, downloaded := 5 })]
    rfl

theorem lastKeyVal_cons_ne {k key : List Nat} (h : k ≠ key) (v : Bencode)
    (rest : List (List Nat × Bencode)) :
    lastKeyVal key ((k, v) :: rest) = lastKeyVal key rest := by
  simp only [lastKeyVal]
  cases hrest : lastKeyVal key rest with
  | some w => rfl
  | none => simp [h]

theorem lastKeyVal_cons_eq {k key : List Nat} (h : k = key) (v : Bencode)
    (rest : List (List Nat × Bencode)) :
    lastKeyVal key ((k, v) :: rest) = some ((lastKeyVal key rest).getD v) := by
  simp only [lastKeyVal]
  cases hrest : lastKeyVal key rest with
  | some w => rfl
  | none => simp [h]

theorem topLoop_char :
    ∀ (pairs : List (List Nat × Bencode)),
      (∀ p ∈ pairs, p.1 = ascii "files" → ∃ m, decodeFilesVal p.2 = .ok m) →
      (∀ p ∈ pairs, p.1 = ascii "failure reason" → ∃ s, p.2 = .bytes s) →
      ∀ files fr, ∃ f2 fr2,
        topLoop pairs files fr = .ok (f2, fr2)
        ∧ (lastKeyVal (ascii "files") pairs = none → f2 = files)
        ∧ (∀ v, lastKeyVal (ascii "files") pairs = some v →
            ∀ m, decodeFilesVal v = .ok m → f2 = some m)
        ∧ (lastKeyVal (ascii "failure reason") pairs = none → fr2 = fr)
        ∧ (∀ s, lastKeyVal (ascii "failure reason") pairs = some (.bytes s) → fr2 = some s) := by
  intro pairs
  induction pairs with
  | nil =>
    intro _ _ files fr
    exact ⟨files, fr, rfl, fun _ => rfl, by simp [lastKeyVal], fun _ => rfl, by simp [lastKeyVal]⟩
  | cons pr rest ih =>
    rcases pr with ⟨k, v⟩
    intro h1 h2 files fr
    have h1r : ∀ p ∈ rest, p.1 = ascii "files" → ∃ m, decodeFilesVal p.2 = .ok m :=
      fun p hp => h1 p (by simp [hp])
    have h2r : ∀ p ∈ rest, p.1 = ascii "failure reason" → ∃ s, p.2 = .bytes s :=
      fun p hp => h2 p (by simp [hp])
    by_cases hk : k = ascii "files"
    · obtain ⟨m0, hm0⟩ := h1 (k, v) (by simp) hk
      obtain ⟨f2, fr2, heq, c2, c3, c4, c5⟩ := ih h1r h2r (some m0) fr
      have hne2 : k ≠ ascii "failure reason" := by rw [hk]; decide
      refine ⟨f2, fr2, ?_, ?_, ?_, ?_, ?_⟩
      · have hm0v : decodeFilesVal v = .ok m0 := hm0
        simp only [topLoop, if_pos hk, hm0v, bind, Except.bind]
        exact heq
      · intro hnone
        rw [lastKeyVal_cons_eq hk] at hnone
        simp at hnone
      · intro w hw m hm
        rw [lastKeyVal_cons_eq hk] at hw
        cases hrest : lastKeyVal (ascii "files") rest with
        | some w0 =>
          rw [hrest] at hw
          simp only [Option.getD_some, Option.some.injEq] at hw
          exact c3 w0 hrest m (by rw [hw]; exact hm)
        | none =>
          rw [hrest] at hw
          simp only [Option.getD_none, Option.some.injEq] at hw
          have hm0v : decodeFilesVal v = .ok m0 := hm0
          rw [← hw] at hm
          rw [hm0v] at hm
          simp only [Except.ok.injEq] at hm
          rw [c2 hrest, hm]
      · intro hnone
        rw [lastKeyVal_cons_ne hne2] at hnone
        exact c4 hnone
      · intro s hs
        rw [lastKeyVal_cons_ne hne2] at hs
        exact c5 s hs
    · by_cases hk2 : k = ascii "failure reason"
      · obtain ⟨s0, hs0⟩ := h2 (k, v) (by simp) hk2
        obtain ⟨f2, fr2, heq, c2, c3, c4, c5⟩ := ih h1r h2r files (some s0)
        refine ⟨f2, fr2, ?_, ?_, ?_, ?_, ?_⟩
        · have hv0 : v = Bencode.bytes s0 := hs0
          simp only [topLoop, if_neg hk, if_pos hk2, hv0]
          exact heq
        · intro hnone
          rw [lastKeyVal_cons_ne hk] at hnone
          exact c2 hnone
        · intro w hw m hm
          rw [lastKeyVal_cons_ne hk] at hw
          exact c3 w hw m hm
        · intro hnone
          rw [lastKeyVal_cons_eq hk2] at hnone
          simp at hnone
        · intro s hs
          rw [lastKeyVal_cons_eq hk2] at hs
          cases hrest : lastKeyVal (ascii "failure reason") rest with
          | some w0 =>
            rw [hrest] at hs
            simp only [Option.getD_some, Option.some.injEq] at hs
            exact c5 s (by rw [hrest, hs])
          | none =>
            rw [hrest] at hs
            simp only [Option.getD_none, Option.some.injEq] at hs
            have hv : Bencode.bytes s = Bencode.bytes s0 := by rw [← hs]; exact hs0
            injection hv with hss
            rw [c4 hrest, hss]
      · obtain ⟨f2, fr2, heq, c2, c3, c4, c5⟩ := ih h1r h2r files fr
        refine ⟨f2, fr2, ?_, ?_, ?_, ?_, ?_⟩
        · simp only [topLoop, if_neg hk, if_neg hk2]
          exact heq
        · intro hnone
          rw [lastKeyVal_cons_ne hk] at hnone
          exact c2 hnone
        · intro w hw m hm
          rw [lastKeyVal_cons_ne hk] at hw
          exact c3 w hw m hm
        · intro hnone
          rw [lastKeyVal_cons_ne hk2] at hnone
          exact c4 hnone
        · intro s hs
          rw [lastKeyVal_cons_ne hk2] at hs
          exact c5 s hs

/-- C6: for a scrape-response dictionary whose `files` values decode cleanly
and whose `failure reason` values are byte strings, the decoder yields:
`Failure(message)` whenever a `failure reason` key is present — even when a
`files` key is also present (failure wins over partial success), with the
message coming from the last such pair; `Success(map)` when `files` is
present (last occurrence deciding) and `failure reason` absent; and
`missing_field("files")` when neither key occurs. -/
theorem claim_C6 (pairs : List (List Nat × Bencode))
    (h1 : ∀ p ∈ pairs, p.1 = ascii "files" → ∃ m, decodeFilesVal p.2 = .ok m)
    (h2 : ∀ p ∈ pairs, p.1 = ascii "failure reason" → ∃ s, p.2 = .bytes s) :
    (∀ s, lastKeyVal (ascii "failure reason") pairs = some (.bytes s) →
      decodeHttpScrapeResponse (.dict pairs) = .ok (.Failure s))
  ∧ (∀ v m, lastKeyVal (ascii "failure reason") pairs = none →
      lastKeyVal (ascii "files") pairs = some v → decodeFilesVal v = .ok m →
      decodeHttpScrapeResponse (.dict pairs) = .ok (.Success m))
  ∧ (lastKeyVal (ascii "failure reason") pairs = none →
      lastKeyVal (ascii "files") pairs = none →
      decodeHttpScrapeResponse (.dict pairs) = .error (.missingField "files")) := by
  obtain ⟨f2, fr2, heq, c2, c3, c4, c5⟩ := topLoop_char pairs h1 h2 none none
  refine ⟨?_, ?_, ?_⟩
  · intro s hs
    simp only [decodeHttpScrapeResponse, heq, bind, Except.bind, c5 s hs]
  · intro v m hfr hv hm
    simp only [decodeHttpScrapeResponse, heq, bind, Except.bind, c4 hfr, c3 v hv m hm]
  · intro hfr hv
    simp only [decodeHttpScrapeResponse, heq, bind, Except.bind, c4 hfr, c2 hv]

/-- Witness for C6 at concrete dictionaries: with both `files` and
`failure reason` present the decoder returns the failure (precedence);
with only `files` it returns the decoded map; with neither it fails with
`missing_field("files")`. -/
theorem claim_C6_witness :
    decodeHttpScrapeResponse (.dict
      [(ascii "files", .dict [(List.replicate 20 65,
          .dict [(ascii "complete", .int 10), (ascii "downloaded", .int 32),
                 (ascii "incomplete", .int 0)])]),
       (ascii "failure reason", .bytes (ascii "nope"))])
      = .ok (.Failure (ascii "nope"))
  ∧ decodeHttpScrapeResponse (.dict
      [(ascii "files", .dict [(List.replicate 20 65,
          .dict [(ascii "complete", .int 10), (ascii "downloaded", .int 32),
                 (ascii "incomplete", .int 0)])])])
      = .ok (.Success [(⟨List.replicate 20 65⟩,
          { complete := 10, incomplete := 0, downloaded := 32 })])
  ∧ decodeHttpScrapeResponse (.dict [(ascii "foo", .int 3)])
      = .error (.missingField "files") :=
  ⟨(claim_C6
      [(ascii "files", .dict [(List.replicate 20 65,
          .dict [(ascii "complete", .int 10), (ascii "downloaded", .int 32),
                 (ascii "incomplete", .int 0)])]),
       (ascii "failure reason", .bytes (ascii "nope"))]
      (by
        intro p hp hk
        simp only [List.mem_cons, List.not_mem_nil, or_false] at hp
        rcases hp with rfl | rfl
        · exact ⟨[(⟨List.replicate 20 65⟩,
            { complete := 10, incomplete := 0, downloaded := 32 })], rfl⟩
        · exact absurd hk (by decide))
      (by
        intro p hp hk
        simp only [List.mem_cons, List.not_mem_nil, or_false] at hp
        rcases hp with rfl | rfl
        · exact absurd hk (by decide)
        · exact ⟨ascii "nope", rfl⟩)).1 (ascii "nope") rfl,
   (claim_C6
      [(ascii "files", .dict [(List.replicate 20 65,
          .dict [(ascii "complete", .int 10), (ascii "downloaded", .int 32),
                 (ascii "incomplete", .int 0)])])]
      (by
        intro p hp hk
        simp only [List.mem_cons, List.not_mem_nil, or_false] at hp
        rcases hp with rfl
        exact ⟨[(⟨List.replicate 20 65⟩,
          { complete := 10, incomplete := 0, downloaded := 32 })], rfl⟩)
      (by
        intro p hp hk
        simp only [List.mem_cons, List.not_mem_nil, or_false] at hp
        rcases hp with rfl
        exact absurd hk (by decide))).2.1
      (.dict [(List.replicate 20 65,
          .dict [(ascii "complete", .int 10), (ascii "downloaded", .int 32),
                 (ascii "incomplete", .int 0)])])
      [(⟨List.replicate 20 65⟩, { complete := 10, incomplete := 0, downloaded := 32 })]
      rfl rfl rfl,
   (claim_C6 [(ascii "foo", .int 3)]
      (by
        intro p hp hk
        simp only [List.mem_cons, List.not_mem_nil, or_false] at hp
        rcases hp with rfl
        exact absurd hk (by decide))
      (by
        intro p hp hk
        simp only [List.mem_cons, List.not_mem_nil, or_false] at hp
        rcases hp with rfl
        exact absurd hk (by decide))).2.2 rfl rfl⟩

/-- C7: bencode decoding of a response body fails with `NoData` exactly when
the input is empty (the decoder's `next_object` yields nothing); and when one
top-level object parses at the decoder's configured depth and decodes to a
scrape response, the result is that response if the object consumed the whole
input, and the `TrailingData` error if any bytes remain after it. -/
theorem claim_C7 (maxDepth : Nat) (buf : List Nat) :
    (buf = [] → decodeBencodeScrape maxDepth buf = .error .NoData)
  ∧ (∀ obj rest v, parseObjAux (buf.length + 1) maxDepth buf = .ok (obj, rest) →
      decodeHttpScrapeResponse obj = .ok v →
      (rest = [] → decodeBencodeScrape maxDepth buf = .ok v)
      ∧ (rest ≠ [] → decodeBencodeScrape maxDepth buf = .error .TrailingData)) := by
  refine ⟨?_, ?_⟩
  · intro h
    subst h
    rfl
  · intro obj rest v hp hd
    rcases hbuf : buf with _ | ⟨b, bs⟩
    · rw [hbuf] at hp
      simp [parseObjAux] at hp
    · rw [hbuf] at hp
      have h1 : decodeBencodeScrape maxDepth (b :: bs)
          = if rest.isEmpty then .ok v else .error .TrailingData := by
        simp only [decodeBencodeScrape, List.isEmpty_cons, Bool.false_eq_true, if_false, hp, hd]
      constructor
      · intro hr
        rw [h1, hr]
        rfl
      · intro hr
        rw [h1, if_neg (by simpa [List.isEmpty_iff] using hr)]

/-- Witness for C7: the spec's failure-response example decodes successfully
when exact, fails with `TrailingData` with one extra byte appended, and the
empty input fails with `NoData`. -/
theorem claim_C7_witness :
    decodeBencodeScrape 2048 [] = .error .NoData
  ∧ decodeBencodeScrape 2048 (ascii "d14:failure reason11:Out of bitse")
      = .ok (.Failure (ascii "Out of bits"))
  ∧ decodeBencodeScrape 2048 (ascii "d14:failure reason11:Out of bitse" ++ [120])
      = .error .TrailingData :=
  ⟨(claim_C7 2048 []).1 rfl,
   ((claim_C7 2048 (ascii "d14:failure reason11:Out of bitse")).2
      (.dict [(ascii "failure reason", .bytes (ascii "Out of bits"))]) []
      (.Failure (ascii "Out of bits")) rfl rfl).1 rfl,
   ((claim_C7 2048 (ascii "d14:failure reason11:Out of bitse" ++ [120])).2
      (.dict [(ascii "failure reason", .bytes (ascii "Out of bits"))]) [120]
      (.Failure (ascii "Out of bits")) (by rfl) rfl).2 (by decide)⟩

theorem intercalate_cons_cons (a b : String) (l : List String) :
    String.intercalate "&" ((a ++ "&" ++ b) :: l) = String.intercalate "&" (a :: b :: l) := by
  show String.intercalate.go (a ++ "&" ++ b) "&" l = String.intercalate.go a "&" (b :: l)
  rw [String.intercalate.go]

theorem appendParams_char (hashes : List InfoHash) :
    ∀ u : Url,
      (List.foldl (fun u ih => addBytesQueryParam u "info_hash" ih.bytes) u hashes).scheme
        = u.scheme
    ∧ (List.foldl (fun u ih => addBytesQueryParam u "info_hash" ih.bytes) u hashes).host
        = u.host
    ∧ (List.foldl (fun u ih => addBytesQueryParam u "info_hash" ih.bytes) u hashes).port
        = u.port
    ∧ (List.foldl (fun u ih => addBytesQueryParam u "info_hash" ih.bytes) u hashes).path
        = u.path
    ∧ (List.foldl (fun u ih => addBytesQueryParam u "info_hash" ih.bytes) u hashes).fragment
        = u.fragment
    ∧ (∀ q0, u.query = some q0 → q0 ≠ "" →
        (List.foldl (fun u ih => addBytesQueryParam u "info_hash" ih.bytes) u hashes).query
          = some (String.intercalate "&" (q0 :: scrapeParams hashes)))
    ∧ (u.query = none →
        (List.foldl (fun u ih => addBytesQueryParam u "info_hash" ih.bytes) u hashes).query
          = if hashes = [] then none
            else some (String.intercalate "&" (scrapeParams hashes))) := by
  induction hashes with
  | nil =>
    intro u
    refine ⟨rfl, rfl, rfl, rfl, rfl, ?_, ?_⟩
    · intro q0 hq _
      exact hq
    · intro hq
      simpa using hq
  | cons ih0 rest ihp =>
    intro u
    obtain ⟨s1, s2, s3, s4, s5, s6, s7⟩ := ihp (addBytesQueryParam u "info_hash" ih0.bytes)
    refine ⟨by rw [List.foldl_cons]; exact s1, by rw [List.foldl_cons]; exact s2,
      by rw [List.foldl_cons]; exact s3, by rw [List.foldl_cons]; exact s4,
      by rw [List.foldl_cons]; exact s5, ?_, ?_⟩
    · intro q0 hq hne
      have hq1 : (addBytesQueryParam u "info_hash" ih0.bytes).query
          = some (q0 ++ "&" ++ ("info_hash=" ++ percentEncodeBytes ih0.bytes)) := by
        have hlit : ("info_hash" ++ "=" : String) = "info_hash=" := by decide
        simp only [addBytesQueryParam, hq, hlit]
        rw [if_neg hne]
      have hne1 : q0 ++ "&" ++ ("info_hash=" ++ percentEncodeBytes ih0.bytes) ≠ "" := by
        intro hc
        have hlen := congrArg String.length hc
        rw [String.length_append, String.length_append] at hlen
        have h1 : ("&" : String).length = 1 := rfl
        rw [h1] at hlen
        simp at hlen
      rw [List.foldl_cons, s6 _ hq1 hne1]
      rw [intercalate_cons_cons]
      rfl
    · intro hq
      have hq1 : (addBytesQueryParam u "info_hash" ih0.bytes).query
          = some ("info_hash=" ++ percentEncodeBytes ih0.bytes) := by
        have hlit : ("info_hash" ++ "=" : String) = "info_hash=" := by decide
        simp only [addBytesQueryParam, hq, hlit]
      have hne1 : ("info_hash=" ++ percentEncodeBytes ih0.bytes : String) ≠ "" := by
        intro hc
        have hlen := congrArg String.length hc
        rw [String.length_append] at hlen
        have h1 : ("info_hash=" : String).length = 10 := rfl
        rw [h1] at hlen
        simp at hlen
      rw [List.foldl_cons, s6 _ hq1 hne1]
      simp [scrapeParams]

/-- C8: the scrape request URL is the stored announce URL with every
occurrence of the literal substring `"announce"` in the path replaced by
`"scrape"`, the fragment dropped, scheme/host/port untouched, and the query
extended with one `info_hash` parameter per requested hash in order, each
value being the hash's raw 20 bytes percent-encoded as opaque octets. -/
theorem claim_C8 (announce : Url) (hashes : List InfoHash) :
    (buildScrapeUrl announce hashes).path = strReplace announce.path "announce" "scrape"
  ∧ (buildScrapeUrl announce hashes).fragment = none
  ∧ (buildScrapeUrl announce hashes).scheme = announce.scheme
  ∧ (buildScrapeUrl announce hashes).host = announce.host
  ∧ (buildScrapeUrl announce hashes).port = announce.port
  ∧ (∀ q0, announce.query = some q0 → q0 ≠ "" →
      (buildScrapeUrl announce hashes).query
        = some (String.intercalate "&" (q0 :: scrapeParams hashes)))
  ∧ (announce.query = none →
      (buildScrapeUrl announce hashes).query
        = if hashes = [] then none
          else some (String.intercalate "&" (scrapeParams hashes))) := by
  obtain ⟨s1, s2, s3, s4, s5, s6, s7⟩ := appendParams_char hashes
    { announce with path := strReplace announce.path "announce" "scrape", fragment := none }
  exact ⟨s4, s5, s1, s2, s3, s6, s7⟩

/-- Witness for C8 at the repository's own test vector: the announce URL
`http://tracker.example.com:8080/announce?here=there` with one hash gains a
query equal to the test's expected percent-encoded string, its path becomes
`/scrape`, and its fragment is cleared. -/
theorem claim_C8_witness :
    (buildScrapeUrl ⟨"http", "tracker.example.com", some 8080, "/announce",
        some "here=there", some "frag"⟩
      [⟨[0x28, 0xC5, 0x51, 0x96, 0xF5, 0x77, 0x53, 0xC4, 0x0A, 0xCE,
         0xB6, 0xFB, 0x58, 0x61, 0x7E, 0x69, 0x95, 0xA7, 0xED, 0xDB]⟩]).query
      = some (String.intercalate "&" ("here=there" :: scrapeParams
          [⟨[0x28, 0xC5, 0x51, 0x96, 0xF5, 0x77, 0x53, 0xC4, 0x0A, 0xCE,
             0xB6, 0xFB, 0x58, 0x61, 0x7E, 0x69, 0x95, 0xA7, 0xED, 0xDB]⟩]))
  ∧ String.intercalate "&" ("here=there" :: scrapeParams
        [⟨[0x28, 0xC5, 0x51, 0x96, 0xF5, 0x77, 0x53, 0xC4, 0x0A, 0xCE,
           0xB6, 0xFB, 0x58, 0x61, 0x7E, 0x69, 0x95, 0xA7, 0xED, 0xDB]⟩])
      = "here=there&info_hash=%28%C5Q%96%F5wS%C4%0A%CE%B6%FBXa%7Ei%95%A7%ED%DB"
  ∧ (buildScrapeUrl ⟨"http", "tracker.example.com", some 8080, "/announce",
        some "here=there", some "frag"⟩
      [⟨[0x28, 0xC5, 0x51, 0x96, 0xF5, 0x77, 0x53, 0xC4, 0x0A, 0xCE,
         0xB6, 0xFB, 0x58, 0x61, 0x7E, 0x69, 0x95, 0xA7, 0xED, 0xDB]⟩]).fragment = none
  ∧ strReplace "/announce" "announce" "scrape" = "/scrape" :=
  ⟨(claim_C8 ⟨"http", "tracker.example.com", some 8080, "/announce",
        some "here=there", some "frag"⟩
      [⟨[0x28, 0xC5, 0x51, 0x96, 0xF5, 0x77, 0x53, 0xC4, 0x0A, 0xCE,
         0xB6, 0xFB, 0x58, 0x61, 0x7E, 0x69, 0x95, 0xA7, 0xED, 0xDB]⟩]).2.2.2.2.2.1
      "here=there" rfl (by decide),
   by decide,
   (claim_C8 ⟨"http", "tracker.example.com", some 8080, "/announce",
        some "here=there", some "frag"⟩
      [⟨[0x28, 0xC5, 0x51, 0x96, 0xF5, 0x77, 0x53, 0xC4, 0x0A, 0xCE,
         0xB6, 0xFB, 0x58, 0x61, 0x7E, 0x69, 0x95, 0xA7, 0xED, 0xDB]⟩]).2.1,
   by decide⟩

end Trscrape
